import Mathlib

/-!
Shallow embedding of the `tree_backend` service (`server.py`, `init_db.py`,
`migrate_mongo_to_postgres.py`).

Database state is modelled as three lists of rows (`nodes`, `relationships`,
`clicks`); timestamps are naturals.  `ORDER BY created_at` is modelled by a
stable sort (`List.insertionSort`).  The `content_id` column is the primary
key of `nodes`, so node ids are unique in any reachable database state; the
Python `node_map` dict keyed by `content_id` therefore coincides with the
positional list of sorted node rows used here.
-/

structure NodeRow where
  contentId : String
  name : String
  description : String
  status : String
  createdAt : Nat
deriving DecidableEq, Repr

structure RelRow where
  parentId : String
  childId : String
  createdAt : Nat
deriving DecidableEq, Repr

structure ClickRow where
  sourceId : String
  targetId : String
  count : Nat
  firstClicked : Nat
  lastClicked : Nat
deriving DecidableEq, Repr

structure DB where
  nodes : List NodeRow
  relationships : List RelRow
  clicks : List ClickRow
deriving DecidableEq, Repr

/-- `SELECT ... FROM nodes ORDER BY created_at` in `get_tree`. -/
def sortNodes (ns : List NodeRow) : List NodeRow :=
  ns.insertionSort (fun a b => a.createdAt ≤ b.createdAt)

/-- `SELECT parent_id, child_id FROM relationships ORDER BY created_at`. -/
def sortRels (rs : List RelRow) : List RelRow :=
  rs.insertionSort (fun a b => a.createdAt ≤ b.createdAt)

/-- One element of the `/tree` response: the node fields plus the list of
child ids accumulated in `node_map[...]["children"]`. -/
structure TreeEntry where
  contentId : String
  name : String
  description : String
  status : String
  children : List String
deriving DecidableEq, Repr

/-- One `node_map` entry as first built: node fields and an empty `children`. -/
def initEntry (n : NodeRow) : TreeEntry :=
  ⟨n.contentId, n.name, n.description, n.status, []⟩

def initEntries (ns : List NodeRow) : List TreeEntry := ns.map initEntry

/-- The guard `parent_id in node_map and child_id in node_map` of `get_tree`. -/
def validRel (ids : List String) (r : RelRow) : Bool :=
  ids.contains r.parentId && ids.contains r.childId

/-- `node_map[parent_id]["children"].append(child_id)`: under unique node ids
this touches exactly the entry keyed by the parent. -/
def appendChild (m : List TreeEntry) (p c : String) : List TreeEntry :=
  m.map (fun e => if e.contentId = p then { e with children := e.children ++ [c] } else e)

/-- Body of the `for rel in cur` loop of `get_tree`: thread the `node_map`
entries and the `child_nodes` set through one relationship row. -/
def treeStep (ids : List String) (acc : List TreeEntry × List String) (r : RelRow) :
    List TreeEntry × List String :=
  if validRel ids r then
    (appendChild acc.1 r.parentId r.childId,
     if acc.2.contains r.childId then acc.2 else r.childId :: acc.2)
  else acc

/-- The whole relationship loop of `get_tree`. -/
def buildTree (ids : List String) (rels : List RelRow) (acc : List TreeEntry × List String) :
    List TreeEntry × List String :=
  rels.foldl (treeStep ids) acc

/-- `GET /tree` (`get_tree` in `server.py`): nodes and relationships are read
in ascending `created_at` order; every relationship whose endpoints both
exist appends its child id to the parent entry and marks the child id as a
non-root; the response keeps the entries whose id never occurred as a child,
and when no such entry remains the first entry (`next(iter(node_map))`) is
returned alone. -/
def get_tree (db : DB) : List TreeEntry :=
  let ns := sortNodes db.nodes
  if ns.isEmpty then [] else
  let ids := ns.map (fun n => n.contentId)
  let res := buildTree ids (sortRels db.relationships) (initEntries ns, [])
  let roots := res.1.filter (fun e => !(res.2.contains e.contentId))
  if roots.isEmpty then res.1.take 1 else roots

/-- All node ids in `created_at` order (the keys of `node_map`). -/
def nodeIds (db : DB) : List String :=
  (sortNodes db.nodes).map (fun n => n.contentId)

/-- The child ids appended to the entry keyed `p` over a relationship list. -/
def childrenFromRels (ids : List String) (p : String) (rels : List RelRow) : List String :=
  (rels.filter (fun r => validRel ids r && r.parentId == p)).map (fun r => r.childId)

theorem childrenFromRels_nil (ids : List String) (p : String) :
    childrenFromRels ids p [] = [] := rfl

theorem childrenFromRels_cons (ids : List String) (p : String) (r : RelRow)
    (rest : List RelRow) :
    childrenFromRels ids p (r :: rest) =
      (if validRel ids r && r.parentId == p then [r.childId] else []) ++
        childrenFromRels ids p rest := by
  by_cases h : (validRel ids r && r.parentId == p) = true <;>
    simp [childrenFromRels, List.filter_cons, h]

/-- The `node_map` entries after the relationship loop: each entry has
received exactly the child ids of the valid relationships keyed by its own
`contentId`, in list order. -/
theorem buildTree_fst (ids : List String) (rels : List RelRow) :
    ∀ (m : List TreeEntry) (s : List String),
    (buildTree ids rels (m, s)).1 =
      m.map (fun e => { e with children := e.children ++ childrenFromRels ids e.contentId rels }) := by
  induction rels with
  | nil =>
    intro m s
    simp [buildTree, childrenFromRels]
  | cons r rest ih =>
    intro m s
    by_cases hv : validRel ids r
    · have h1 : buildTree ids (r :: rest) (m, s) =
          buildTree ids rest (appendChild m r.parentId r.childId,
            if s.contains r.childId then s else r.childId :: s) := by
        simp [buildTree, treeStep, hv]
      rw [h1, ih, appendChild, List.map_map]
      apply List.map_congr_left
      intro e _
      by_cases hp : e.contentId = r.parentId
      · simp [Function.comp, hp, childrenFromRels_cons, hv]
      · have hp2 : (r.parentId == e.contentId) = false := by
          simp [beq_iff_eq]
          exact fun h => hp h.symm
        simp [Function.comp, hp, childrenFromRels_cons, hv, hp2]
    · have h1 : buildTree ids (r :: rest) (m, s) = buildTree ids rest (m, s) := by
        simp [buildTree, treeStep, hv]
      rw [h1, ih]
      apply List.map_congr_left
      intro e _
      have hv2 : validRel ids r = false := by simpa using hv
      simp [childrenFromRels_cons, hv2]

/-- Membership in the `child_nodes` set after the relationship loop: exactly
the initial members and the child ids of the valid relationships. -/
theorem buildTree_snd_mem (ids : List String) (rels : List RelRow) :
    ∀ (m : List TreeEntry) (s : List String) (c : String),
    (c ∈ (buildTree ids rels (m, s)).2 ↔
      c ∈ s ∨ c ∈ (rels.filter (validRel ids)).map (fun r => r.childId)) := by
  induction rels with
  | nil => intro m s c; simp [buildTree]
  | cons r rest ih =>
    intro m s c
    by_cases hv : validRel ids r
    · have h1 : buildTree ids (r :: rest) (m, s) =
          buildTree ids rest (appendChild m r.parentId r.childId,
            if s.contains r.childId then s else r.childId :: s) := by
        simp [buildTree, treeStep, hv]
      rw [h1, ih]
      by_cases hc : r.childId ∈ s
      · have hcontains : s.contains r.childId = true := by simpa using hc
        rw [List.filter_cons_of_pos hv]
        simp only [hcontains, if_true, List.map_cons, List.mem_cons]
        constructor
        · rintro (h | h)
          · exact Or.inl h
          · exact Or.inr (Or.inr h)
        · rintro (h | h | h)
          · exact Or.inl h
          · exact Or.inl (h ▸ hc)
          · exact Or.inr h
      · have hcontains : s.contains r.childId = false := by simpa using hc
        rw [List.filter_cons_of_pos hv]
        simp only [hcontains, Bool.false_eq_true, if_false, List.map_cons, List.mem_cons]
        tauto
    · have h1 : buildTree ids (r :: rest) (m, s) = buildTree ids rest (m, s) := by
        simp [buildTree, treeStep, hv]
      rw [h1, ih]
      have hv2 : validRel ids r = false := by simpa using hv
      simp [List.filter_cons, hv2]

/-- Every entry of the `/tree` response is one of the sorted node rows,
carrying as `children` the child ids of the valid relationships whose parent
is that node, in ascending relationship `created_at` order. -/
theorem mem_get_tree (db : DB) (e : TreeEntry) (he : e ∈ get_tree db) :
    ∃ n ∈ sortNodes db.nodes,
      e = ⟨n.contentId, n.name, n.description, n.status,
           childrenFromRels (nodeIds db) n.contentId (sortRels db.relationships)⟩ := by
  simp only [get_tree] at he
  by_cases hne : (sortNodes db.nodes).isEmpty
  · rw [if_pos hne] at he
    exact absurd he (List.not_mem_nil e)
  · rw [if_neg hne] at he
    have hsub : e ∈ (buildTree (List.map (fun n => n.contentId) (sortNodes db.nodes))
        (sortRels db.relationships) (initEntries (sortNodes db.nodes), [])).1 := by
      split at he
      · exact List.take_subset 1 _ he
      · exact (List.mem_filter.mp he).1
    rw [buildTree_fst] at hsub
    rcases List.mem_map.mp hsub with ⟨e0, he0, heq⟩
    rcases List.mem_map.mp he0 with ⟨n, hn, hen⟩
    refine ⟨n, hn, ?_⟩
    subst hen
    simp [initEntry] at heq ⊢
    exact heq.symm

/-- `SELECT 1 FROM nodes WHERE content_id IN (a, b)` followed by
`len(cur.fetchall()) == 2`: the number of stored node rows whose id is one
of the two arguments must be exactly two. -/
def nodesExistBoth (db : DB) (aId bId : String) : Bool :=
  (db.nodes.filter (fun n => n.contentId == aId || n.contentId == bId)).length == 2

inductive ClickResult where
  | badRequest
  | notFound
  | recorded (count : Nat)
deriving DecidableEq, Repr

/-- `POST /link/click` (`click_link`): validate ids, require both nodes to
exist, then upsert the `(source_id, target_id)` counter: on conflict the
count is incremented and `last_clicked` replaced, otherwise a fresh row with
count 1 and both timestamps equal to now is inserted.  The upsert keys on
the unique index over `(source_id, target_id)` that the `ON CONFLICT`
clause of the SQL statement requires. -/
def click_link (db : DB) (s t : String) (now : Nat) : DB × ClickResult :=
  if s = "" ∨ t = "" then (db, .badRequest)
  else if !nodesExistBoth db s t then (db, .notFound)
  else
    match db.clicks.find? (fun k => k.sourceId == s && k.targetId == t) with
    | some k0 =>
        ({ db with clicks := db.clicks.map (fun k =>
              if k.sourceId == s && k.targetId == t then
                { k with count := k.count + 1, lastClicked := now }
              else k) },
         .recorded (k0.count + 1))
    | none =>
        ({ db with clicks := db.clicks ++ [⟨s, t, 1, now, now⟩] }, .recorded 1)

/-- Repeated clicks on one pair: final state and the responses in call
order. -/
def clickSeq (db : DB) (s t : String) : List Nat → DB × List ClickResult
  | [] => (db, [])
  | ts :: rest =>
    let stp := click_link db s t ts
    let res := clickSeq stp.1 s t rest
    (res.1, stp.2 :: res.2)

inductive RelCreateResult where
  | badRequest
  | selfRelation
  | notFound
  | alreadyExists
  | created
deriving DecidableEq, Repr

/-- `POST /relation/create` (`create_relation`): validate ids, reject
self-relationships, require both nodes to exist, then insert the edge with
`ON CONFLICT (parent_id, child_id) DO NOTHING`; a conflicting insert leaves
the table unchanged (`rowcount == 0`) and answers "Relationship already
exists" with status 200. -/
def create_relation (db : DB) (p c : String) (now : Nat) : DB × RelCreateResult :=
  if p = "" ∨ c = "" then (db, .badRequest)
  else if p = c then (db, .selfRelation)
  else if !nodesExistBoth db p c then (db, .notFound)
  else if db.relationships.any (fun r => r.parentId == p && r.childId == c) then
    (db, .alreadyExists)
  else ({ db with relationships := db.relationships ++ [⟨p, c, now⟩] }, .created)

inductive DeleteResult where
  | notFound
  | deleted
deriving DecidableEq, Repr

/-- `DELETE /node/delete/<id>` (`delete_node`): if the node exists, delete
in one transaction every relationship row and click row mentioning the id on
either side, then the node row itself. -/
def delete_node (db : DB) (nid : String) : DB × DeleteResult :=
  if !db.nodes.any (fun n => n.contentId == nid) then (db, .notFound)
  else
    ({ nodes := db.nodes.filter (fun n => !(n.contentId == nid)),
       relationships := db.relationships.filter
         (fun r => !(r.parentId == nid || r.childId == nid)),
       clicks := db.clicks.filter
         (fun k => !(k.sourceId == nid || k.targetId == nid)) },
     .deleted)

inductive RelDeleteResult where
  | badRequest
  | notFound
  | deleted
deriving DecidableEq, Repr

/-- `DELETE /relation/delete` (`delete_relation`): the handler issues a
click delete for BOTH ordered pairs `(p, c)` and `(c, p)`, then deletes the
relationship row.  When no relationship row matches it answers not-found
without committing, and the pooled connection rolls the click delete back on
release, so the state is unchanged on that path. -/
def delete_relation (db : DB) (p c : String) : DB × RelDeleteResult :=
  if p = "" ∨ c = "" then (db, .badRequest)
  else if !db.relationships.any (fun r => r.parentId == p && r.childId == c) then
    (db, .notFound)
  else
    ({ db with
       relationships := db.relationships.filter
         (fun r => !(r.parentId == p && r.childId == c)),
       clicks := db.clicks.filter
         (fun k => !((k.sourceId == p && k.targetId == c) ||
                     (k.sourceId == c && k.targetId == p))) },
     .deleted)

/-- Case-insensitive containment over char lists (SQL `ILIKE '%pat%'`). -/
def containsSub : List Char → List Char → Bool
  | [], pat => pat.isEmpty
  | h :: t, pat => pat.isPrefixOf (h :: t) || containsSub t pat

def lowerChars (s : String) : List Char := s.data.map Char.toLower

/-- `name ILIKE %pat% OR description ILIKE %pat%` where the pattern is
`search_term.replace("_", " ")`. -/
def matchesSearch (term : String) (n : NodeRow) : Bool :=
  let pat := (term.data.map (fun ch => if ch = '_' then ' ' else ch)).map Char.toLower
  containsSub (lowerChars n.name) pat || containsSub (lowerChars n.description) pat

inductive SearchResult where
  | matches (rows : List NodeRow)
  | noMatch
  | databaseError
deriving DecidableEq, Repr

/-- `GET /node/search/<term>` (`search_nodes`): underscores in the term
stand for spaces, matching is case-insensitive substring over name and
description; an empty result answers the "No match" signal.  The
`databaseError` constructor models the generic 500 path of
`with_db_connection`, which this handler never takes. -/
def search_nodes (db : DB) (term : String) : SearchResult :=
  let results := db.nodes.filter (matchesSearch term)
  if results.isEmpty then .noMatch else .matches results

inductive TableConstraint where
  | primaryKey (cols : List String)
  | uniqueCols (cols : List String)
  | notNull (col : String)
deriving DecidableEq, Repr

structure TableSchema where
  tableName : String
  columns : List String
  constraints : List TableConstraint
deriving DecidableEq, Repr

/-- `CREATE TABLE nodes` from `schema_sql` in `init_db.py`. -/
def nodes_table : TableSchema :=
  { tableName := "nodes",
    columns := ["content_id", "name", "description", "status", "created_at"],
    constraints := [.primaryKey ["content_id"], .notNull "name", .notNull "created_at"] }

/-- `CREATE TABLE relationships` from `schema_sql` in `init_db.py`: a serial
primary key and NOT NULL columns, nothing else. -/
def relationships_table : TableSchema :=
  { tableName := "relationships",
    columns := ["id", "parent_id", "child_id", "created_at"],
    constraints := [.primaryKey ["id"], .notNull "parent_id", .notNull "child_id",
                    .notNull "created_at"] }

/-- `CREATE TABLE clicks` from `schema_sql` in `init_db.py`: a serial
primary key and NOT NULL columns, nothing else. -/
def clicks_table : TableSchema :=
  { tableName := "clicks",
    columns := ["id", "source_id", "target_id", "count", "first_clicked", "last_clicked"],
    constraints := [.primaryKey ["id"], .notNull "source_id", .notNull "target_id",
                    .notNull "count", .notNull "first_clicked", .notNull "last_clicked"] }

/-- Whether a table schema declares a uniqueness constraint over exactly
`cols` (either as the primary key or as an explicit unique constraint). -/
def enforcesUnique (t : TableSchema) (cols : List String) : Bool :=
  t.constraints.any (fun c =>
    match c with
    | .primaryKey cs => cs == cols
    | .uniqueCols cs => cs == cols
    | .notNull _ => false)

/-- A stored `relationships` row including its serial `id` column. -/
structure StoredRelRow where
  rowId : Nat
  parentId : String
  childId : String
  createdAt : Nat
deriving DecidableEq, Repr

/-- Everything `schema_sql` requires of the `relationships` table contents:
the serial primary key is unique (NOT NULL holds by typing). -/
def relationshipsTableAdmits (rows : List StoredRelRow) : Prop :=
  (rows.map (fun r => r.rowId)).Nodup

/-- A stored `clicks` row including its serial `id` column. -/
structure StoredClickRow where
  rowId : Nat
  sourceId : String
  targetId : String
  count : Nat
  firstClicked : Nat
  lastClicked : Nat
deriving DecidableEq, Repr

/-- Everything `schema_sql` requires of the `clicks` table contents. -/
def clicksTableAdmits (rows : List StoredClickRow) : Prop :=
  (rows.map (fun r => r.rowId)).Nodup

/-!  ## Claims  -/

/-- C5: the claim states that the persisted schema enforces uniqueness of
the node id, of the ordered relationship pair `(parent_id, child_id)` and of
the ordered click pair `(source_id, target_id)`.  `schema_sql` enforces only
the first: the other two tables carry just a serial primary key, and two-row
tables holding the same ordered pair twice satisfy every constraint of the
schema, as evaluated here.  `server.py` itself relies on the missing
indexes — its `ON CONFLICT (parent_id, child_id)` and
`ON CONFLICT (source_id, target_id)` statements are only executable when
those unique indexes exist — so the schema contradicts the server code. -/
theorem schema_pair_uniqueness_missing :
    enforcesUnique nodes_table ["content_id"] = true ∧
    enforcesUnique relationships_table ["parent_id", "child_id"] = false ∧
    enforcesUnique clicks_table ["source_id", "target_id"] = false ∧
    relationshipsTableAdmits [⟨1, "p", "c", 0⟩, ⟨2, "p", "c", 1⟩] ∧
    clicksTableAdmits [⟨1, "s", "t", 1, 0, 0⟩, ⟨2, "s", "t", 3, 1, 1⟩] := by
  refine ⟨rfl, rfl, rfl, ?_, ?_⟩
  · show ([1, 2] : List Nat).Nodup
    decide
  · show ([1, 2] : List Nat).Nodup
    decide

/-- Total number of occurrences of `c` across the children lists of the
`/tree` response. -/
def childEntryCount (db : DB) (c : String) : Nat :=
  ((get_tree db).map (fun e => e.children.count c)).sum

/-- The parent of the earliest-created incoming relationship of `c` whose
endpoints both exist. -/
def earliestValidParent (db : DB) (c : String) : Option String :=
  (((sortRels db.relationships).filter (validRel (nodeIds db))).find?
      (fun r => r.childId == c)).map (fun r => r.parentId)

/-- C1 as stated: with relationships stored in ascending creation order,
each child id occurs in at most one children list of the response, namely
under the parent of its earliest-created incoming edge, and later edges to
an already-resolved child add no further children-list entry. -/
def resolverAssignsOneParent (db : DB) : Prop :=
  db.relationships.Pairwise (fun a b => a.createdAt ≤ b.createdAt) →
  ∀ c : String, childEntryCount db c ≤ 1 ∧
    ∀ e ∈ get_tree db, c ∈ e.children → earliestValidParent db c = some e.contentId

/-- C1 counterexample: edges (p1, c) then (p2, c) in ascending creation
order leave c in the children lists of BOTH p1 and p2; the later edge does
add a second children-list entry. -/
theorem resolver_one_parent_counterexample :
    ¬ resolverAssignsOneParent
        ⟨[⟨"p1", "P1", "", "New", 0⟩, ⟨"p2", "P2", "", "New", 1⟩,
          ⟨"c", "C", "", "New", 2⟩],
         [⟨"p1", "c", 0⟩, ⟨"p2", "c", 1⟩], []⟩ := by
  intro h
  exact absurd (h (by decide) "c").1 (by decide)

/-- C2 as stated: the `/tree` response has one top-level entry per stored
node, in ascending `created_at` order. -/
def treeListsAllNodes (db : DB) : Prop :=
  (get_tree db).map (fun e => e.contentId) = nodeIds db

/-- C2 counterexample: with nodes a, b and the edge (a, b), the response is
the single entry a; the child node b is nested, not a top-level entry. -/
theorem tree_lists_all_nodes_counterexample :
    ¬ treeListsAllNodes ⟨[⟨"a", "A", "", "New", 0⟩, ⟨"b", "B", "", "New", 1⟩],
                         [⟨"a", "b", 0⟩], []⟩ := by
  unfold treeListsAllNodes
  decide

/-- The id of the earliest-created node (the designated root). -/
def designatedRootId (db : DB) : Option String :=
  (sortNodes db.nodes).head?.map (fun n => n.contentId)

/-- C3 as stated: the earliest-created node id never occurs in any children
list of the response, even when a stored edge names it as a child. -/
def rootNeverListedAsChild (db : DB) : Prop :=
  ∀ r, designatedRootId db = some r → ∀ e ∈ get_tree db, r ∉ e.children

/-- C3 counterexample: with nodes r (earliest) and x and the stored edge
(x, r), the response entry x carries r in its children list; nothing
suppresses the designated root in the attachment step. -/
theorem root_never_child_counterexample :
    ¬ rootNeverListedAsChild ⟨[⟨"r", "R", "", "New", 0⟩, ⟨"x", "X", "", "New", 1⟩],
                              [⟨"x", "r", 0⟩], []⟩ := by
  intro h
  exact absurd (h "r" (by decide) ⟨"x", "X", "", "New", ["r"]⟩ (by decide)) (by decide)

theorem map_filter_comp {α β : Type} (f : α → β) (p : β → Bool) (l : List α) :
    (l.filter (fun x => p (f x))).map f = (l.map f).filter p := by
  induction l with
  | nil => rfl
  | cons a t ih => by_cases h : p (f a) <;> simp [List.filter_cons, h, ih]

theorem contains_eq_of_mem_iff {l₁ l₂ : List String}
    (h : ∀ a, a ∈ l₁ ↔ a ∈ l₂) (a : String) :
    l₁.contains a = l₂.contains a := by
  show List.elem a l₁ = List.elem a l₂
  by_cases ha : a ∈ l₂
  · rw [List.elem_iff.mpr ((h a).mpr ha), List.elem_iff.mpr ha]
  · have h1 : List.elem a l₁ = false := by
      rw [← Bool.not_eq_true]
      exact fun hc => ha ((h a).mp (List.elem_iff.mp hc))
    have h2 : List.elem a l₂ = false := by
      rw [← Bool.not_eq_true]
      exact fun hc => ha (List.elem_iff.mp hc)
    rw [h1, h2]

/-- `ORDER BY created_at` returns a permutation of the stored rows. -/
theorem sortRels_perm (rs : List RelRow) : (sortRels rs).Perm rs :=
  List.perm_insertionSort _ rs

theorem sortNodes_perm (ns : List NodeRow) : (sortNodes ns).Perm ns :=
  List.perm_insertionSort _ ns

/-- The entry ids of the full `node_map` after the relationship loop are the
node ids in ascending `created_at` order. -/
theorem buildTree_fst_ids (db : DB) :
    (buildTree (List.map (fun n => n.contentId) (sortNodes db.nodes))
        (sortRels db.relationships)
        (initEntries (sortNodes db.nodes), [])).1.map (fun e => e.contentId) =
      nodeIds db := by
  rw [buildTree_fst, List.map_map, initEntries, List.map_map]
  rfl

/-- C1 amended: nothing resolves multiple parents down to one.  Every
stored relationship whose endpoints both exist contributes a children-list
entry, so in each response entry a child id occurs once per stored
relationship from that entry to the child, not only for the
earliest-created incoming edge. -/
theorem resolver_counts_every_edge (db : DB) (e : TreeEntry) (he : e ∈ get_tree db)
    (c : String) :
    e.children.count c =
      (db.relationships.filter (fun r =>
        validRel (nodeIds db) r && r.parentId == e.contentId && r.childId == c)).length := by
  rcases mem_get_tree db e he with ⟨n, hn, rfl⟩
  show (childrenFromRels (nodeIds db) n.contentId (sortRels db.relationships)).count c =
    (db.relationships.filter (fun r =>
      validRel (nodeIds db) r && r.parentId == n.contentId && r.childId == c)).length
  rw [childrenFromRels, List.count, List.countP_map, List.countP_filter,
    (sortRels_perm db.relationships).countP_eq,
    List.countP_eq_length_filter]
  congr 1
  apply List.filter_congr
  intro r _
  simp only [Function.comp_apply]
  rw [Bool.and_comm]

/-- The three-node, two-parent example state. -/
def dbTwoParents : DB :=
  ⟨[⟨"p1", "P1", "", "New", 0⟩, ⟨"p2", "P2", "", "New", 1⟩, ⟨"c", "C", "", "New", 2⟩],
   [⟨"p1", "c", 0⟩, ⟨"p2", "c", 1⟩], []⟩

theorem resolver_counts_every_edge_witness :
    (⟨"p2", "P2", "", "New", ["c"]⟩ : TreeEntry) ∈ get_tree dbTwoParents ∧
    (⟨"p2", "P2", "", "New", ["c"]⟩ : TreeEntry).children.count "c" =
      (dbTwoParents.relationships.filter (fun r =>
        validRel (nodeIds dbTwoParents) r && r.parentId == "p2" && r.childId == "c")).length :=
  ⟨by decide, resolver_counts_every_edge dbTwoParents _ (by decide) "c"⟩

/-- The ids the `/tree` response keeps: nodes never occurring as the child
of a relationship with both endpoints stored; when none remain, the first
node id alone. -/
def rootIdsSpec (db : DB) : List String :=
  let childs := ((sortRels db.relationships).filter (validRel (nodeIds db))).map
    (fun r => r.childId)
  let roots := (nodeIds db).filter (fun i => !(childs.contains i))
  if roots.isEmpty then (nodeIds db).take 1 else roots

/-- C2 amended: the response lists, in ascending `created_at` order, exactly
the nodes that never occur as the child of a relationship with both
endpoints stored (falling back to the single earliest node when every node
is such a child); child nodes appear only inside `children` id lists, never
as additional top-level entries. -/
theorem tree_top_level_ids (db : DB) :
    (get_tree db).map (fun e => e.contentId) = rootIdsSpec db := by
  by_cases hne : (sortNodes db.nodes).isEmpty
  · have h0 : sortNodes db.nodes = [] := List.isEmpty_iff.mp hne
    simp [get_tree, rootIdsSpec, hne, h0, nodeIds]
  · have hmemiff : ∀ a,
        a ∈ (buildTree (List.map (fun n => n.contentId) (sortNodes db.nodes))
              (sortRels db.relationships) (initEntries (sortNodes db.nodes), [])).2 ↔
        a ∈ ((sortRels db.relationships).filter
              (validRel (nodeIds db))).map (fun r => r.childId) := by
      intro a
      rw [buildTree_snd_mem]
      simp [nodeIds]
    have hfilter :
        ((buildTree (List.map (fun n => n.contentId) (sortNodes db.nodes))
            (sortRels db.relationships) (initEntries (sortNodes db.nodes), [])).1.filter
          (fun e => !((buildTree (List.map (fun n => n.contentId) (sortNodes db.nodes))
            (sortRels db.relationships)
            (initEntries (sortNodes db.nodes), [])).2.contains e.contentId))).map
          (fun e => e.contentId) =
        (nodeIds db).filter (fun i =>
          !(((sortRels db.relationships).filter
              (validRel (nodeIds db))).map (fun r => r.childId)).contains i) := by
      rw [map_filter_comp (fun e : TreeEntry => e.contentId)
        (fun i => !((buildTree (List.map (fun n => n.contentId) (sortNodes db.nodes))
            (sortRels db.relationships)
            (initEntries (sortNodes db.nodes), [])).2.contains i)), buildTree_fst_ids]
      apply List.filter_congr
      intro i _
      rw [contains_eq_of_mem_iff hmemiff]
    simp only [get_tree, rootIdsSpec, hne, Bool.false_eq_true, if_false]
    rw [← hfilter]
    by_cases hroots :
        ((buildTree (List.map (fun n => n.contentId) (sortNodes db.nodes))
            (sortRels db.relationships) (initEntries (sortNodes db.nodes), [])).1.filter
          (fun e => !((buildTree (List.map (fun n => n.contentId) (sortNodes db.nodes))
            (sortRels db.relationships)
            (initEntries (sortNodes db.nodes), [])).2.contains e.contentId))).isEmpty
    · have hspec : (((buildTree (List.map (fun n => n.contentId) (sortNodes db.nodes))
            (sortRels db.relationships) (initEntries (sortNodes db.nodes), [])).1.filter
          (fun e => !((buildTree (List.map (fun n => n.contentId) (sortNodes db.nodes))
            (sortRels db.relationships)
            (initEntries (sortNodes db.nodes), [])).2.contains e.contentId))).map
          (fun e => e.contentId)).isEmpty := by
        rw [List.isEmpty_iff] at hroots ⊢
        rw [hroots]
        rfl
      rw [if_pos hroots, if_pos hspec, ← buildTree_fst_ids db, ← List.map_take]
    · have hspec : ¬ (((buildTree (List.map (fun n => n.contentId) (sortNodes db.nodes))
            (sortRels db.relationships) (initEntries (sortNodes db.nodes), [])).1.filter
          (fun e => !((buildTree (List.map (fun n => n.contentId) (sortNodes db.nodes))
            (sortRels db.relationships)
            (initEntries (sortNodes db.nodes), [])).2.contains e.contentId))).map
          (fun e => e.contentId)).isEmpty := by
        rw [List.isEmpty_iff] at hroots ⊢
        intro hmap
        exact hroots (List.map_eq_nil_iff.mp hmap)
      rw [if_neg hroots, if_neg hspec]

/-- C3 amended: the earliest-created node is NOT suppressed in the
attachment step: its id occurs in the children list of a response entry
exactly when a stored relationship with both endpoints stored names it as
that entry's child. -/
theorem root_child_entry_iff_edge (db : DB) (e : TreeEntry) (he : e ∈ get_tree db)
    (r : String) (_hr : designatedRootId db = some r) :
    r ∈ e.children ↔ ∃ rel ∈ db.relationships,
      rel.parentId = e.contentId ∧ rel.childId = r ∧ validRel (nodeIds db) rel = true := by
  rcases mem_get_tree db e he with ⟨n, hn, rfl⟩
  show r ∈ childrenFromRels (nodeIds db) n.contentId (sortRels db.relationships) ↔
    ∃ rel ∈ db.relationships,
      rel.parentId = n.contentId ∧ rel.childId = r ∧ validRel (nodeIds db) rel = true
  simp only [childrenFromRels, List.mem_map, List.mem_filter, Bool.and_eq_true, beq_iff_eq,
    (sortRels_perm db.relationships).mem_iff]
  constructor
  · rintro ⟨rel, ⟨hmem, hval, hp⟩, hc⟩
    exact ⟨rel, hmem, hp, hc, hval⟩
  · rintro ⟨rel, hmem, hp, hc, hval⟩
    exact ⟨rel, ⟨hmem, hval, hp⟩, hc⟩

/-- The two-node example state in which a stored edge targets the earliest
node. -/
def dbRootAsChild : DB :=
  ⟨[⟨"r", "R", "", "New", 0⟩, ⟨"x", "X", "", "New", 1⟩], [⟨"x", "r", 0⟩], []⟩

theorem root_child_entry_iff_edge_witness :
    designatedRootId dbRootAsChild = some "r" ∧
    ((⟨"x", "X", "", "New", ["r"]⟩ : TreeEntry) ∈ get_tree dbRootAsChild) ∧
    ("r" ∈ (⟨"x", "X", "", "New", ["r"]⟩ : TreeEntry).children ↔
      ∃ rel ∈ dbRootAsChild.relationships,
        rel.parentId = "x" ∧ rel.childId = "r" ∧
          validRel (nodeIds dbRootAsChild) rel = true) :=
  ⟨by decide, by decide,
   root_child_entry_iff_edge dbRootAsChild _ (by decide) "r" (by decide)⟩

/-- Threading the whole upsert loop once a row for the pair is in place:
every further click updates exactly that row, incrementing its count and
replacing `last_clicked`, and answers the running count. -/
theorem clickSeq_loop (s t : String) (hs : s ≠ "") (ht : t ≠ "") (ts : List Nat) :
    ∀ (db : DB) (r : ClickRow),
    nodesExistBoth db s t = true →
    (∀ k ∈ db.clicks, (k.sourceId == s && k.targetId == t) = false) →
    r.sourceId = s → r.targetId = t →
    clickSeq { db with clicks := db.clicks ++ [r] } s t ts =
      ({ db with clicks := db.clicks ++
          [⟨r.sourceId, r.targetId, r.count + ts.length, r.firstClicked,
            ts.getLastD r.lastClicked⟩] },
       (List.range ts.length).map (fun i => ClickResult.recorded (r.count + i + 1))) := by
  induction ts with
  | nil =>
    intro db r hex hnone hrs hrt
    simp [clickSeq]
  | cons t0 rest ih =>
    intro db r hex hnone hrs hrt
    have hguard : ¬ (s = "" ∨ t = "") := by
      rintro (h | h)
      · exact hs h
      · exact ht h
    have hex2 : nodesExistBoth { db with clicks := db.clicks ++ [r] } s t = true := hex
    have hfind : (db.clicks ++ [r]).find?
        (fun k => k.sourceId == s && k.targetId == t) = some r := by
      rw [List.find?_append, List.find?_eq_none.mpr (fun k hk => by simp [hnone k hk])]
      simp [List.find?, hrs, hrt]
    have hmap : (db.clicks ++ [r]).map (fun k =>
        if k.sourceId == s && k.targetId == t then
          { k with count := k.count + 1, lastClicked := t0 } else k) =
        db.clicks ++ [{ r with count := r.count + 1, lastClicked := t0 }] := by
      rw [List.map_append]
      congr 1
      · have hpt : ∀ k ∈ db.clicks, (fun k : ClickRow =>
            if k.sourceId == s && k.targetId == t then
              { k with count := k.count + 1, lastClicked := t0 } else k) k = id k := by
          intro k hk
          simp [hnone k hk]
        rw [List.map_congr_left hpt, List.map_id]
      · simp [hrs, hrt]
    have hstep : click_link { db with clicks := db.clicks ++ [r] } s t t0 =
        ({ db with clicks :=
            db.clicks ++ [{ r with count := r.count + 1, lastClicked := t0 }] },
         ClickResult.recorded (r.count + 1)) := by
      unfold click_link
      rw [if_neg hguard]
      simp only [hex2, Bool.not_true, Bool.false_eq_true, if_false]
      rw [hfind]
      simp only [hmap]
    simp only [clickSeq, hstep]
    rw [ih db { r with count := r.count + 1, lastClicked := t0 } hex hnone hrs hrt]
    have h2 : (t0 :: rest).getLastD r.lastClicked = rest.getLastD t0 :=
      List.getLastD_cons r.lastClicked t0 rest
    refine Prod.ext ?_ ?_
    · show ({ db with clicks := db.clicks ++
          [⟨r.sourceId, r.targetId, r.count + 1 + rest.length, r.firstClicked,
            rest.getLastD t0⟩] } : DB) =
        { db with clicks := db.clicks ++
          [⟨r.sourceId, r.targetId, r.count + (t0 :: rest).length, r.firstClicked,
            (t0 :: rest).getLastD r.lastClicked⟩] }
      rw [h2]
      have h3 : r.count + 1 + rest.length = r.count + (t0 :: rest).length := by
        simp only [List.length_cons]
        omega
      rw [h3]
    · show ClickResult.recorded (r.count + 1) ::
        (List.range rest.length).map (fun i => ClickResult.recorded (r.count + 1 + i + 1)) =
        (List.range (rest.length + 1)).map (fun i => ClickResult.recorded (r.count + i + 1))
      rw [List.range_succ_eq_map, List.map_cons, List.map_map]
      simp only [Nat.add_zero]
      congr 1
      apply List.map_congr_left
      intro i _
      simp only [Function.comp_apply]
      congr 1
      omega

/-- C4: from a state holding no counter for a pair of existing nodes, N
clicks at timestamps `ts` all succeed with running counts 1..N, and the
stored counter ends with count N, `first_clicked` equal to the first
timestamp (unchanged by the later calls) and `last_clicked` equal to the
last one. -/
theorem click_counter_accumulates (db : DB) (s t : String) (ts : List Nat)
    (hs : s ≠ "") (ht : t ≠ "")
    (hex : nodesExistBoth db s t = true)
    (hnone : ∀ k ∈ db.clicks, (k.sourceId == s && k.targetId == t) = false)
    (hne : ts ≠ []) :
    (clickSeq db s t ts).2 =
      (List.range ts.length).map (fun i => ClickResult.recorded (i + 1)) ∧
    (clickSeq db s t ts).1.clicks.find?
        (fun k => k.sourceId == s && k.targetId == t) =
      some ⟨s, t, ts.length, ts.headD 0, ts.getLastD 0⟩ := by
  match ts, hne with
  | t0 :: rest, _ =>
    have hguard : ¬ (s = "" ∨ t = "") := by
      rintro (h | h)
      · exact hs h
      · exact ht h
    have hfind0 : db.clicks.find? (fun k => k.sourceId == s && k.targetId == t) = none :=
      List.find?_eq_none.mpr (fun k hk => by simp [hnone k hk])
    have hstep : click_link db s t t0 =
        ({ db with clicks := db.clicks ++ [⟨s, t, 1, t0, t0⟩] }, ClickResult.recorded 1) := by
      unfold click_link
      rw [if_neg hguard]
      simp only [hex, Bool.not_true, Bool.false_eq_true, if_false]
      rw [hfind0]
    simp only [clickSeq, hstep]
    rw [clickSeq_loop s t hs ht rest db ⟨s, t, 1, t0, t0⟩ hex hnone rfl rfl]
    constructor
    · show ClickResult.recorded 1 ::
        (List.range rest.length).map (fun i => ClickResult.recorded (1 + i + 1)) =
        (List.range (rest.length + 1)).map (fun i => ClickResult.recorded (i + 1))
      rw [List.range_succ_eq_map, List.map_cons, List.map_map]
      congr 1
      apply List.map_congr_left
      intro i _
      simp only [Function.comp_apply]
      congr 1
      omega
    · show (db.clicks ++
          ([⟨s, t, 1 + rest.length, t0, rest.getLastD t0⟩] : List ClickRow)).find?
          (fun k => k.sourceId == s && k.targetId == t) =
        some ⟨s, t, (t0 :: rest).length, (t0 :: rest).headD 0, (t0 :: rest).getLastD 0⟩
      rw [List.find?_append, hfind0, Option.none_or]
      simp [List.find?, List.getLastD_cons, List.headD_cons, Nat.add_comm]
      rw [← List.getLastD_eq_getLast?, ← List.getLastD_eq_getLast?]
      exact (List.getLastD_cons 0 t0 rest).symm

/-- The two-node example state with no click counters. -/
def dbClickPair : DB :=
  ⟨[⟨"s", "S", "", "New", 0⟩, ⟨"t", "T", "", "New", 1⟩], [], []⟩

theorem click_counter_accumulates_witness :
    (clickSeq dbClickPair "s" "t" [5, 7, 9]).2 =
      (List.range ([5, 7, 9] : List Nat).length).map
        (fun i => ClickResult.recorded (i + 1)) ∧
    (clickSeq dbClickPair "s" "t" [5, 7, 9]).1.clicks.find?
        (fun k => k.sourceId == "s" && k.targetId == "t") =
      some ⟨"s", "t", ([5, 7, 9] : List Nat).length, ([5, 7, 9] : List Nat).headD 0,
            ([5, 7, 9] : List Nat).getLastD 0⟩ :=
  click_counter_accumulates dbClickPair "s" "t" [5, 7, 9] (by decide) (by decide)
    (by decide) (fun k hk => nomatch hk) (by decide)

/-- C6: after a successful edge creation, creating the same edge again is
an idempotent no-op success: the "already exists" outcome, no error, and no
change to the stored relationships. -/
theorem create_relation_idempotent (db : DB) (p c : String) (n1 n2 : Nat)
    (h : (create_relation db p c n1).2 = .created) :
    (create_relation (create_relation db p c n1).1 p c n2).2 =
      RelCreateResult.alreadyExists ∧
    (create_relation (create_relation db p c n1).1 p c n2).1 =
      (create_relation db p c n1).1 := by
  by_cases h1 : p = "" ∨ c = ""
  · simp [create_relation, h1] at h
  obtain ⟨hp, hc⟩ : ¬ p = "" ∧ ¬ c = "" := not_or.mp h1
  by_cases h2 : p = c
  · simp [create_relation, h2, hc] at h
  cases h3 : nodesExistBoth db p c with
  | false => simp [create_relation, h1, h2, h3] at h
  | true =>
    cases h4 : db.relationships.any (fun r => r.parentId == p && r.childId == c) with
    | true => simp [create_relation, h1, h2, h3, h4] at h
    | false =>
      have hfst : (create_relation db p c n1).1 =
          { db with relationships := db.relationships ++ [⟨p, c, n1⟩] } := by
        simp [create_relation, h1, h2, h3, h4]
      rw [hfst]
      have hex2 : nodesExistBoth
          { db with relationships := db.relationships ++ [⟨p, c, n1⟩] } p c = true := h3
      have hany : ({ db with relationships := db.relationships ++ [⟨p, c, n1⟩] } : DB).relationships.any
          (fun r => r.parentId == p && r.childId == c) = true := by
        simp
      refine ⟨?_, ?_⟩ <;> simp [create_relation, h1, h2, hex2, hany]

/-- The two-node example state with no relationships yet. -/
def dbEdgePair : DB :=
  ⟨[⟨"p", "P", "", "New", 0⟩, ⟨"c", "C", "", "New", 1⟩], [], []⟩

theorem create_relation_idempotent_witness :
    (create_relation (create_relation dbEdgePair "p" "c" 1).1 "p" "c" 2).2 =
      RelCreateResult.alreadyExists ∧
    (create_relation (create_relation dbEdgePair "p" "c" 1).1 "p" "c" 2).1 =
      (create_relation dbEdgePair "p" "c" 1).1 :=
  create_relation_idempotent dbEdgePair "p" "c" 1 2 (by decide)

/-- C7: a successful node delete removes, in the same operation, every
relationship and every click counter mentioning the id on either side, and
the subsequent `/tree` response references the deleted id nowhere: not as an
entry and not inside any children list. -/
theorem delete_node_cascades (db : DB) (nid : String)
    (h : db.nodes.any (fun n => n.contentId == nid) = true) :
    (∀ r ∈ (delete_node db nid).1.relationships, r.parentId ≠ nid ∧ r.childId ≠ nid) ∧
    (∀ k ∈ (delete_node db nid).1.clicks, k.sourceId ≠ nid ∧ k.targetId ≠ nid) ∧
    (∀ e ∈ get_tree (delete_node db nid).1, e.contentId ≠ nid ∧ nid ∉ e.children) := by
  have hres : (delete_node db nid).1 =
      ⟨db.nodes.filter (fun n => !(n.contentId == nid)),
       db.relationships.filter (fun r => !(r.parentId == nid || r.childId == nid)),
       db.clicks.filter (fun k => !(k.sourceId == nid || k.targetId == nid))⟩ := by
    simp [delete_node, h]
  rw [hres]
  refine ⟨?_, ?_, ?_⟩
  · intro r hr
    have hpred := (List.mem_filter.mp hr).2
    constructor <;> intro hEq <;> simp [hEq] at hpred
  · intro k hk
    have hpred := (List.mem_filter.mp hk).2
    constructor <;> intro hEq <;> simp [hEq] at hpred
  · intro e he
    rcases mem_get_tree _ e he with ⟨n, hn, rfl⟩
    constructor
    · show n.contentId ≠ nid
      have hn2 : n ∈ db.nodes.filter (fun n => !(n.contentId == nid)) :=
        (sortNodes_perm _).mem_iff.mp hn
      have hpred := (List.mem_filter.mp hn2).2
      intro hEq
      simp [hEq] at hpred
    · show nid ∉ childrenFromRels _ n.contentId (sortRels _)
      intro hmem
      rcases List.mem_map.mp hmem with ⟨rel, hrel, hcid⟩
      have hrel2 := (List.mem_filter.mp hrel).1
      have hrel3 : rel ∈ db.relationships.filter
          (fun r => !(r.parentId == nid || r.childId == nid)) :=
        (sortRels_perm _).mem_iff.mp hrel2
      have hpred := (List.mem_filter.mp hrel3).2
      simp [hcid] at hpred

/-- A populated example state around the node "x". -/
def dbAroundX : DB :=
  ⟨[⟨"x", "X", "", "New", 0⟩, ⟨"y", "Y", "", "New", 1⟩],
   [⟨"x", "y", 0⟩, ⟨"y", "x", 1⟩],
   [⟨"x", "y", 2, 0, 0⟩, ⟨"y", "x", 1, 0, 0⟩]⟩

theorem delete_node_cascades_witness :
    (∀ r ∈ (delete_node dbAroundX "x").1.relationships,
        r.parentId ≠ "x" ∧ r.childId ≠ "x") ∧
    (∀ k ∈ (delete_node dbAroundX "x").1.clicks,
        k.sourceId ≠ "x" ∧ k.targetId ≠ "x") ∧
    (∀ e ∈ get_tree (delete_node dbAroundX "x").1,
        e.contentId ≠ "x" ∧ "x" ∉ e.children) :=
  delete_node_cascades dbAroundX "x" (by decide)

/-- C8 as stated: a successful edge delete removes the edge, removes the
click counter of the SAME ordered pair, and leaves the counter of every
other ordered pair — the reverse pair included — in place. -/
def deleteRelationExactPair (db : DB) (p c : String) : Prop :=
  (delete_relation db p c).2 = .deleted →
    (∀ r ∈ (delete_relation db p c).1.relationships,
        ¬(r.parentId = p ∧ r.childId = c)) ∧
    (∀ k ∈ (delete_relation db p c).1.clicks,
        ¬(k.sourceId = p ∧ k.targetId = c)) ∧
    (∀ k ∈ db.clicks, ¬(k.sourceId = p ∧ k.targetId = c) →
        k ∈ (delete_relation db p c).1.clicks)

/-- C8 counterexample: deleting the edge (p, c) also deletes the click
counter of the REVERSE ordered pair (c, p), which the claim says must be
unchanged. -/
theorem delete_relation_exact_pair_counterexample :
    ¬ deleteRelationExactPair
        ⟨[⟨"p", "P", "", "New", 0⟩, ⟨"c", "C", "", "New", 1⟩],
         [⟨"p", "c", 0⟩], [⟨"c", "p", 4, 0, 0⟩]⟩ "p" "c" := by
  intro h
  have h3 := (h (by decide)).2.2 ⟨"c", "p", 4, 0, 0⟩ (by decide) (by decide)
  exact absurd h3 (by decide)

/-- C8 amended: a successful edge delete removes the edge and cascades the
click counters of BOTH ordered pairs (p, c) and (c, p); counters of every
other ordered pair survive, and no counter is created. -/
theorem delete_relation_cascades_both (db : DB) (p c : String)
    (h : (delete_relation db p c).2 = .deleted) :
    (∀ r ∈ (delete_relation db p c).1.relationships,
        ¬(r.parentId = p ∧ r.childId = c)) ∧
    (∀ k ∈ (delete_relation db p c).1.clicks,
        ¬(k.sourceId = p ∧ k.targetId = c) ∧ ¬(k.sourceId = c ∧ k.targetId = p)) ∧
    (∀ k ∈ db.clicks, ¬(k.sourceId = p ∧ k.targetId = c) →
        ¬(k.sourceId = c ∧ k.targetId = p) → k ∈ (delete_relation db p c).1.clicks) ∧
    (∀ k ∈ (delete_relation db p c).1.clicks, k ∈ db.clicks) := by
  by_cases h1 : p = "" ∨ c = ""
  · simp [delete_relation, h1] at h
  cases h2 : db.relationships.any (fun r => r.parentId == p && r.childId == c) with
  | false => simp [delete_relation, h1, h2] at h
  | true =>
    have hres : (delete_relation db p c).1 =
        { db with
          relationships := db.relationships.filter
            (fun r => !(r.parentId == p && r.childId == c)),
          clicks := db.clicks.filter
            (fun k => !((k.sourceId == p && k.targetId == c) ||
                        (k.sourceId == c && k.targetId == p))) } := by
      simp [delete_relation, h1, h2]
    rw [hres]
    refine ⟨?_, ?_, ?_, ?_⟩
    · intro r hr
      have hpred := (List.mem_filter.mp hr).2
      rintro ⟨hrp, hrc⟩
      simp [hrp, hrc] at hpred
    · intro k hk
      have hpred := (List.mem_filter.mp hk).2
      constructor
      · rintro ⟨hks, hkt⟩
        simp [hks, hkt] at hpred
      · rintro ⟨hks, hkt⟩
        simp [hks, hkt] at hpred
    · intro k hk hn1 hn2
      refine List.mem_filter.mpr ⟨hk, ?_⟩
      have hb1 : (k.sourceId == p && k.targetId == c) = false := by
        by_cases hsp : k.sourceId = p
        · by_cases htc : k.targetId = c
          · exact absurd ⟨hsp, htc⟩ hn1
          · simp [htc]
        · simp [hsp]
      have hb2 : (k.sourceId == c && k.targetId == p) = false := by
        by_cases hsc : k.sourceId = c
        · by_cases htp : k.targetId = p
          · exact absurd ⟨hsc, htp⟩ hn2
          · simp [htp]
        · simp [hsc]
      simp [hb1, hb2]
    · intro k hk
      exact (List.mem_filter.mp hk).1

/-- The example state with counters in both directions across the edge. -/
def dbBothCounters : DB :=
  ⟨[⟨"p", "P", "", "New", 0⟩, ⟨"c", "C", "", "New", 1⟩],
   [⟨"p", "c", 0⟩], [⟨"p", "c", 2, 0, 0⟩, ⟨"c", "p", 4, 0, 0⟩, ⟨"p", "z", 7, 0, 0⟩]⟩

theorem delete_relation_cascades_both_witness :
    (∀ r ∈ (delete_relation dbBothCounters "p" "c").1.relationships,
        ¬(r.parentId = "p" ∧ r.childId = "c")) ∧
    (∀ k ∈ (delete_relation dbBothCounters "p" "c").1.clicks,
        ¬(k.sourceId = "p" ∧ k.targetId = "c") ∧
        ¬(k.sourceId = "c" ∧ k.targetId = "p")) ∧
    (∀ k ∈ dbBothCounters.clicks, ¬(k.sourceId = "p" ∧ k.targetId = "c") →
        ¬(k.sourceId = "c" ∧ k.targetId = "p") →
        k ∈ (delete_relation dbBothCounters "p" "c").1.clicks) ∧
    (∀ k ∈ (delete_relation dbBothCounters "p" "c").1.clicks,
        k ∈ dbBothCounters.clicks) :=
  delete_relation_cascades_both dbBothCounters "p" "c" (by decide)

/-- C9: a search term matching no stored name or description yields the
"No match" signal, never the error outcome. -/
theorem search_no_match_signal (db : DB) (term : String)
    (h : ∀ n ∈ db.nodes, matchesSearch term n = false) :
    search_nodes db term = SearchResult.noMatch ∧
    search_nodes db term ≠ SearchResult.databaseError := by
  have hf : db.nodes.filter (matchesSearch term) = [] :=
    List.filter_eq_nil_iff.mpr (fun n hn => by simp [h n hn])
  constructor
  · simp [search_nodes, hf]
  · simp [search_nodes, hf]

/-- The one-node example state for search. -/
def dbSearch : DB := ⟨[⟨"a", "Hello World", "greeting text", "New", 0⟩], [], []⟩

theorem search_no_match_signal_witness :
    search_nodes dbSearch "zz_qq" = SearchResult.noMatch ∧
    search_nodes dbSearch "zz_qq" ≠ SearchResult.databaseError :=
  search_no_match_signal dbSearch "zz_qq" (fun n hn => by
    have h0 : n = ⟨"a", "Hello World", "greeting text", "New", 0⟩ := by
      simpa [dbSearch] using hn
    rw [h0]
    decide)

/-- C10: when the node set is non-empty and every node occurs as the child
of some relationship whose endpoints both exist (for instance when the
relationships form a cycle over all nodes), the response does not go empty:
it is exactly one entry, the earliest-created node. -/
theorem tree_cycle_fallback (db : DB)
    (hne : db.nodes ≠ [])
    (hall : ∀ n ∈ db.nodes, ∃ rel ∈ db.relationships,
        rel.childId = n.contentId ∧ validRel (nodeIds db) rel = true) :
    ∃ e, get_tree db = [e] ∧ (nodeIds db).head? = some e.contentId := by
  have hnsne : sortNodes db.nodes ≠ [] := by
    intro h0
    have hlen := (sortNodes_perm db.nodes).length_eq
    rw [h0] at hlen
    exact hne (List.length_eq_zero.mp hlen.symm)
  have hmemsnd : ∀ e ∈ (buildTree (List.map (fun n => n.contentId) (sortNodes db.nodes))
      (sortRels db.relationships) (initEntries (sortNodes db.nodes), [])).1,
      e.contentId ∈ (buildTree (List.map (fun n => n.contentId) (sortNodes db.nodes))
      (sortRels db.relationships) (initEntries (sortNodes db.nodes), [])).2 := by
    intro e he
    rw [buildTree_fst] at he
    rcases List.mem_map.mp he with ⟨e0, he0, rfl⟩
    rcases List.mem_map.mp he0 with ⟨n, hn, rfl⟩
    rcases hall n ((sortNodes_perm db.nodes).mem_iff.mp hn)
      with ⟨rel, hrelmem, hchild, hvalid⟩
    rw [buildTree_snd_mem]
    refine Or.inr (List.mem_map.mpr ⟨rel, List.mem_filter.mpr
      ⟨(sortRels_perm db.relationships).mem_iff.mpr hrelmem, ?_⟩, ?_⟩)
    · exact hvalid
    · exact hchild
  have hroots : ((buildTree (List.map (fun n => n.contentId) (sortNodes db.nodes))
      (sortRels db.relationships) (initEntries (sortNodes db.nodes), [])).1.filter
        (fun e => !((buildTree (List.map (fun n => n.contentId) (sortNodes db.nodes))
          (sortRels db.relationships)
          (initEntries (sortNodes db.nodes), [])).2.contains e.contentId))) = [] := by
    apply List.filter_eq_nil_iff.mpr
    intro e he
    simp [hmemsnd e he]
  have hgt : get_tree db =
      ((buildTree (List.map (fun n => n.contentId) (sortNodes db.nodes))
        (sortRels db.relationships)
        (initEntries (sortNodes db.nodes), [])).1.take 1) := by
    simp only [get_tree]
    rw [if_neg (fun hI => hnsne (List.isEmpty_iff.mp hI))]
    rw [if_pos (by rw [hroots]; rfl)]
  obtain ⟨n0, rest, hns⟩ := List.exists_cons_of_ne_nil hnsne
  simp only [nodeIds]
  rw [hgt, buildTree_fst, hns, initEntries]
  exact ⟨_, rfl, rfl⟩

/-- The two-node full-cycle example state. -/
def dbCycle : DB :=
  ⟨[⟨"a", "A", "", "New", 0⟩, ⟨"b", "B", "", "New", 1⟩],
   [⟨"a", "b", 0⟩, ⟨"b", "a", 1⟩], []⟩

theorem tree_cycle_fallback_witness :
    ∃ e, get_tree dbCycle = [e] ∧ (nodeIds dbCycle).head? = some e.contentId :=
  tree_cycle_fallback dbCycle (by decide) (by decide)

-- scratch sanity checks
example :
    get_tree ⟨[⟨"a", "A", "", "New", 0⟩, ⟨"b", "B", "", "New", 1⟩],
              [⟨"a", "b", 5⟩], []⟩ =
      [⟨"a", "A", "", "New", ["b"]⟩] := by decide

example :
    get_tree ⟨[⟨"a", "A", "", "New", 0⟩, ⟨"b", "B", "", "New", 1⟩],
              [⟨"a", "b", 5⟩, ⟨"b", "a", 6⟩], []⟩ =
      [⟨"a", "A", "", "New", ["b"]⟩] := by decide

example :
    get_tree ⟨[⟨"p1", "P1", "", "New", 0⟩, ⟨"p2", "P2", "", "New", 1⟩,
               ⟨"c", "C", "", "New", 2⟩],
              [⟨"p1", "c", 0⟩, ⟨"p2", "c", 1⟩], []⟩ =
      [⟨"p1", "P1", "", "New", ["c"]⟩, ⟨"p2", "P2", "", "New", ["c"]⟩] := by decide
